import Mathlib

/-!
Verification of the relaxation-construction and projection engine of
`second_level_stable_set.py`.

The file shallowly embeds the two SDP-relaxation builders
(`second_level_stable_set_problem_sdp` and
`projected_second_level_stable_set_problem_sdp`) and the dimension-bound
calculator (`projected_dimension`) of the source.  Matrices are lists of
rows of rationals; the Mosek model is represented by the data it is given:
the PSD-variable size, the list of linear-equality constraints (each a
coefficient matrix dotted with the PSD variable `X`, an optional `+ b`
term, an optional slack pair `lb[i] - ub[i]`, and a right-hand side), the
objective as a function of the variable assignment, and the number of
slack entries.  The external solver is an oracle parameter: a function
from the assembled instance to the values Mosek reports
(`X.level()`, `b.level()`, `primalObjValue()`).
-/

/-- A monomial is a tuple of per-vertex exponents (Python: a tuple of ints,
used as a dictionary key). -/
abbrev Monomial := List Nat

/-- The total degree of a monomial: the sum of its exponents
(Python: `sum(monomial)`). -/
def total_degree (m : Monomial) : Nat := m.sum

/-- A real matrix, as a list of rows (entries are rationals in the
embedding). -/
abbrev Mat := List (List ℚ)

/-- The numpy shape of a matrix: (number of rows, number of columns of the
first row). -/
def Mat.shape (M : Mat) : Nat × Nat := (M.length, (M.headD []).length)

/-- Dot product of two vectors, truncating at the shorter one
(models `mf.Expr.dot` on vectors). -/
def vdot (v w : List ℚ) : ℚ := (List.zipWith (fun a b => a * b) v w).sum

/-- Frobenius inner product of two matrices:
`Mat.dot A X = sum over i j of A[i][j] * X[i][j]`
(models `mf.Expr.dot` on matrices of equal shape). -/
def Mat.dot (A X : Mat) : ℚ := (List.zipWith vdot A X).sum

/-- Objective coefficients, from
`C = {monomial: -1 if sum(monomial) == 1 else 0 for monomial in distinct_monomials}`. -/
def objective_coefficient (m : Monomial) : ℚ := if m.sum = 1 then -1 else 0

/-- The all-zero exponent tuple, from
`tuple_of_constant = tuple([0 for i in range(len(distinct_monomials[0]))])`. -/
def zero_tuple (dm : List Monomial) : Monomial := List.replicate (dm.headD []).length 0

/-- The PSD-variable size, from
`size_psd_variable = A[distinct_monomials[0]].shape[0]`. -/
def psd_size (dm : List Monomial) (A : Monomial → Mat) : Nat :=
  (A (dm.headD [])).shape.1

/-- One linear-equality constraint handed to the model: the coefficient
matrix dotted with `X`, optionally `+ b`, optionally `+ lb[i] - ub[i]`
for a slack index `i`, equated to `rhs`. -/
structure Constraint where
  mat : Mat
  hasB : Bool
  slackIdx : Option Nat
  rhs : ℚ

/-- Default constraint used with `List.getD`. -/
def dummy_constraint : Constraint := { mat := [], hasB := false, slackIdx := none, rhs := 0 }

/-- The slack contribution `lb[i] - ub[i]` of a constraint (0 when the
constraint carries no slack pair). -/
def Constraint.slackTerm (c : Constraint) (lb ub : List ℚ) : ℚ :=
  match c.slackIdx with
  | none => 0
  | some i => lb.getD i 0 - ub.getD i 0

/-- Satisfaction of one constraint by an assignment of the PSD variable
`X`, the free scalar `b` and the slack vectors. -/
def Constraint.holds (c : Constraint) (X : Mat) (b : ℚ) (lb ub : List ℚ) : Prop :=
  Mat.dot c.mat X + (if c.hasB then b else 0) + c.slackTerm lb ub = c.rhs

/-- The data of one assembled SDP model: everything the `mf.Model` is
given before `M.solve()` is called. -/
structure SDPInstance where
  size_psd_variable : Nat
  constraints : List Constraint
  senseMaximize : Bool
  objective : ℚ → List ℚ → List ℚ → ℚ
  numSlackVars : Nat

/-- Feasibility of an assignment for an instance: the slack vectors have
the allocated length, slack entries are nonnegative
(`mf.Domain.greaterThan(0)`), and every constraint holds.  (Membership of
`X` in the PSD cone is part of the model but is not needed by any claim.) -/
def SDPInstance.feasible (I : SDPInstance) (X : Mat) (b : ℚ) (lb ub : List ℚ) : Prop :=
  lb.length = I.numSlackVars ∧ ub.length = I.numSlackVars ∧
  (∀ x ∈ lb, 0 ≤ x) ∧ (∀ x ∈ ub, 0 ≤ x) ∧
  ∀ c ∈ I.constraints, c.holds X b lb ub

/-- Errors raised while assembling the model.  `mf.Expr.dot` requires its
two operands to have the same shape and raises a dimension error when
they do not (spec section 7: DimensionMismatch). -/
inductive BuildError
  | dimensionMismatch
deriving DecidableEq

/-- The constraint-building loop of `second_level_stable_set_problem_sdp`
(lines 60-72): one equality constraint `A[m] . X = C[m]` per monomial of
the given list, where each `mf.Expr.dot(A[monomial], X)` requires
`A[monomial]` to have the shape of the `sz x sz` PSD variable. -/
def checked_constraints (sz : Nat) (A : Monomial → Mat) :
    List Monomial → Except BuildError (List Constraint)
  | [] => .ok []
  | m :: rest =>
    if (A m).shape = (sz, sz) then
      (checked_constraints sz A rest).map
        (fun cs =>
          { mat := A m, hasB := false, slackIdx := none,
            rhs := objective_coefficient m } :: cs)
    else .error .dimensionMismatch

/-- The model assembled by `second_level_stable_set_problem_sdp` (lines
42-80): PSD variable of size `A[distinct_monomials[0]].shape[0]`, free
scalar `b`, objective `Maximize b`, constraints `A[m] . X = C[m]` for
every monomial other than the constant tuple, and finally
`A[0] . X + b = C[0]`. -/
def second_level_instance (dm : List Monomial) (A : Monomial → Mat) :
    Except BuildError SDPInstance :=
  let sz := psd_size dm A
  let z := zero_tuple dm
  (checked_constraints sz A (dm.filter (fun m => decide (m ≠ z)))).bind
    (fun cs =>
      if (A z).shape = (sz, sz) then
        .ok { size_psd_variable := sz
              constraints := cs ++
                [{ mat := A z, hasB := true, slackIdx := none,
                   rhs := objective_coefficient z }]
              senseMaximize := true
              objective := fun b _ _ => b
              numSlackVars := 0 }
      else .error .dimensionMismatch)

/-- The external SDP solver, as an oracle from the assembled instance to
the values the code reads back: `X.level()`, `b.level()`,
`M.primalObjValue()`. -/
abbrev SolverOracle := SDPInstance → Mat × ℚ × ℚ

/-- The dictionary returned by the builders (lines 129-136 and 253-260).
The wall-clock `computation_time` field is not modelled. -/
structure SolutionRecord where
  X : Mat
  b : ℚ
  objective : ℚ
  size_psd_variable : Nat
  no_linear_variables : Nat ⊕ String

/-- The full unprojected pipeline: assemble the model, hand it to the
solver, and return the solution dictionary.  The returned
`no_linear_variables` entry is the literal string written at line 135 of
the source. -/
def second_level_stable_set_problem_sdp (dm : List Monomial) (A : Monomial → Mat)
    (solver : SolverOracle) : Except BuildError SolutionRecord :=
  (second_level_instance dm A).map
    (fun I =>
      let r := solver I
      { X := r.1, b := r.2.1, objective := r.2.2,
        size_psd_variable := I.size_psd_variable,
        no_linear_variables := Sum.inr (r"TBC") })

/-- Modelled from the spec: the `RandomProjector` class of
`random_projections.py` is not under `src/`.  Per spec section 4.2 it is
constructed with `(output_dim k, input_dim s, family)` and carries the
generating operator `R` (a `k x s` matrix) drawn once at construction. -/
structure RandomProjector where
  k : Nat
  s : Nat
  R : Mat

/-- Modelled from the spec: `apply_rp_map` applies the congruence
transform `R * M * transpose R`, taking an `s x s` matrix to a `k x k`
matrix; entry `(i, j)` of the output is
`sum over a b of R[i][a] * M[a][b] * R[j][b]`. -/
def RandomProjector.apply_rp_map (P : RandomProjector) (M : Mat) : Mat :=
  (List.range P.k).map
    (fun i =>
      (List.range P.k).map
        (fun j =>
          ((List.range P.s).map
            (fun a =>
              ((List.range P.s).map
                (fun b =>
                  (P.R.getD i []).getD a 0 * (M.getD a []).getD b 0 *
                    (P.R.getD j []).getD b 0)).sum)).sum))

/-- The slack weight, from `epsilon = 0.00001` (line 167). -/
def slack_epsilon : ℚ := 1 / 100000

/-- The objective weight vector, from
`ones_vector = np.ones(len(distinct_monomials))` followed by
`ones_vector[0] = 0` (lines 172-173). -/
def ones_vector (n : Nat) : List ℚ := (List.replicate n (1 : ℚ)).set 0 0

/-- The objective of the projected builder (lines 176-195): with slacks,
`Maximize b + ((0 - epsilon) * dot(lb, ones_vector) - (1 + epsilon) * dot(ub, ones_vector))`
with `dual_lower_bound = 0 - epsilon` and `dual_upper_bound = 1 + epsilon`;
without slacks, `Maximize b`. -/
def projected_objective (slack : Bool) (n : Nat) (b : ℚ) (lb ub : List ℚ) : ℚ :=
  if slack then
    b + ((0 - slack_epsilon) * vdot lb (ones_vector n) -
          (1 + slack_epsilon) * vdot ub (ones_vector n))
  else b

/-- The constraint-building loop of the projected builder (lines 200-223):
for the `i`-th monomial of the list (the Python `enumerate` counter starts
at `i0 = 0`), the constraint
`A[m] . X + lb_variables.index(i + 1) - ub_variables.index(i + 1) = C[m]`
when slacks are enabled, and `A[m] . X + 0 = C[m]` otherwise. -/
def projected_constraints (A' : Monomial → Mat) (slack : Bool) :
    Nat → List Monomial → List Constraint
  | _, [] => []
  | i0, m :: rest =>
    { mat := A' m, hasB := false,
      slackIdx := if slack then some (i0 + 1) else none,
      rhs := objective_coefficient m } ::
      projected_constraints A' slack (i0 + 1) rest

/-- The model assembled by `projected_second_level_stable_set_problem_sdp`
(lines 143-230): every coefficient matrix is first replaced by
`projector.apply_rp_map(A[monomial])`; the PSD variable has the size of
the projected matrix of `distinct_monomials[0]`; with slacks, vectors
`lb_variables` and `ub_variables` of length `len(distinct_monomials)` are
allocated in `Domain.greaterThan(0)`.  All projected matrices are
`k x k`, the size of the PSD variable, so no dimension error can arise
while assembling this model. -/
def projected_second_level_instance (dm : List Monomial) (A : Monomial → Mat)
    (P : RandomProjector) (slack : Bool) : SDPInstance :=
  let A' := fun m => P.apply_rp_map (A m)
  let z := zero_tuple dm
  { size_psd_variable := psd_size dm A'
    constraints :=
      projected_constraints A' slack 0 (dm.filter (fun m => decide (m ≠ z))) ++
        [{ mat := A' z, hasB := true, slackIdx := none,
           rhs := objective_coefficient z }]
    senseMaximize := true
    objective := projected_objective slack dm.length
    numSlackVars := if slack then dm.length else 0 }

/-- The local variable computed at lines 248-251:
`linear_variables = 2 * len(constraints) + 1` when slacks are enabled
(`constraints` is the Python list holding only the non-constant-monomial
constraints), else `1`.  The source computes it and never uses it. -/
def projected_linear_variables_local (slack : Bool) (numConstraints : Nat) : Nat :=
  if slack then 2 * numConstraints + 1 else 1

/-- The full projected pipeline: assemble the projected model, hand it to
the solver, and return the solution dictionary (lines 253-262).  The
local `linear_variables` count is computed (lines 248-251) but the
dictionary entry written at line 259 is the literal string. -/
def projected_second_level_stable_set_problem_sdp (dm : List Monomial)
    (A : Monomial → Mat) (P : RandomProjector) (slack : Bool)
    (solver : SolverOracle) : SolutionRecord :=
  let I := projected_second_level_instance dm A P slack
  let r := solver I
  let _linear_variables :=
    projected_linear_variables_local slack (I.constraints.length - 1)
  { X := r.1, b := r.2.1, objective := r.2.2,
    size_psd_variable := I.size_psd_variable,
    no_linear_variables := Sum.inr (r"TBC") }

/-- The dimension-bound calculator (lines 357-367).  The Python function
computes `sum_ranks = 8 * rank_solution + sum(ranks_Ai)`, then
`d = np.log(sum_ranks / probability) * np.exp(2 * (epsilon ** 2 / 2 - epsilon ** 3 / 3))`,
prints `d`, and ends without a return statement, so it returns `None`.
The first component is the returned value, the second the list of printed
values. -/
noncomputable def projected_dimension (epsilon probability : ℝ)
    (ranks_Ai : List Nat) (rank_solution : Nat) : Option ℝ × List ℝ :=
  let sum_ranks : ℝ := 8 * (rank_solution : ℝ) + ((ranks_Ai.map (fun r => (r : ℝ))).sum)
  let epsilon_part : ℝ := Real.exp (2 * (epsilon ^ 2 / 2 - epsilon ^ 3 / 3))
  let d : ℝ := Real.log (sum_ranks / probability) * epsilon_part
  (none, [d])

/-! General lemmas about the embedded operations. -/

theorem checked_constraints_ok (sz : Nat) (A : Monomial → Mat) (L : List Monomial)
    (h : ∀ m ∈ L, (A m).shape = (sz, sz)) :
    checked_constraints sz A L =
      .ok (L.map (fun m =>
        { mat := A m, hasB := false, slackIdx := none,
          rhs := objective_coefficient m })) := by
  induction L with
  | nil => rfl
  | cons m rest ih =>
    have hm : (A m).shape = (sz, sz) := h m (List.mem_cons_self m rest)
    have hrest : ∀ x ∈ rest, (A x).shape = (sz, sz) :=
      fun x hx => h x (List.mem_cons_of_mem m hx)
    simp [checked_constraints, hm, ih hrest, Except.map]

theorem checked_constraints_error (sz : Nat) (A : Monomial → Mat) (L : List Monomial)
    (h : ∃ m ∈ L, (A m).shape ≠ (sz, sz)) :
    checked_constraints sz A L = .error .dimensionMismatch := by
  induction L with
  | nil => simp at h
  | cons m rest ih =>
    by_cases hm : (A m).shape = (sz, sz)
    · have hrest : ∃ x ∈ rest, (A x).shape ≠ (sz, sz) := by
        rcases h with ⟨x, hx, hxs⟩
        rcases List.mem_cons.mp hx with rfl | hx'
        · exact absurd hm hxs
        · exact ⟨x, hx', hxs⟩
      simp [checked_constraints, hm, ih hrest, Except.map]
    · simp [checked_constraints, hm]

theorem projected_constraints_length (A' : Monomial → Mat) (slack : Bool)
    (i0 : Nat) (L : List Monomial) :
    (projected_constraints A' slack i0 L).length = L.length := by
  induction L generalizing i0 with
  | nil => rfl
  | cons m rest ih => simp [projected_constraints, ih]

theorem projected_constraints_getD (A' : Monomial → Mat) (slack : Bool)
    (i0 j : Nat) (L : List Monomial) (hj : j < L.length) :
    (projected_constraints A' slack i0 L).getD j dummy_constraint =
      { mat := A' (L.getD j []), hasB := false,
        slackIdx := if slack then some (i0 + j + 1) else none,
        rhs := objective_coefficient (L.getD j []) } := by
  induction L generalizing i0 j with
  | nil => simp at hj
  | cons m rest ih =>
    cases j with
    | zero => simp [projected_constraints]
    | succ j' =>
      have hj' : j' < rest.length := Nat.lt_of_succ_lt_succ hj
      have harith : i0 + 1 + j' + 1 = i0 + (j' + 1) + 1 := by omega
      have hrec := ih (i0 + 1) j' hj'
      rw [harith] at hrec
      simp only [projected_constraints, List.getD_cons_succ, hrec]

theorem projected_constraints_false_eq_map (A' : Monomial → Mat)
    (i0 : Nat) (L : List Monomial) :
    projected_constraints A' false i0 L =
      L.map (fun m =>
        { mat := A' m, hasB := false, slackIdx := none,
          rhs := objective_coefficient m }) := by
  induction L generalizing i0 with
  | nil => rfl
  | cons m rest ih => simp [projected_constraints, ih]

theorem projected_constraints_mem_slackIdx (A' : Monomial → Mat)
    (i0 : Nat) (L : List Monomial) (c : Constraint)
    (hc : c ∈ projected_constraints A' true i0 L) :
    ∃ t, c.slackIdx = some (t + 1) := by
  induction L generalizing i0 with
  | nil => simp [projected_constraints] at hc
  | cons m rest ih =>
    rcases List.mem_cons.mp hc with rfl | hc'
    · exact ⟨i0, rfl⟩
    · exact ih (i0 + 1) hc'

theorem apply_rp_map_shape (P : RandomProjector) (M : Mat) :
    (P.apply_rp_map M).shape = (P.k, P.k) := by
  unfold RandomProjector.apply_rp_map Mat.shape
  cases hk : P.k with
  | zero => simp
  | succ n =>
    simp [List.range_succ_eq_map]

theorem vdot_nil_right (v : List ℚ) : vdot v [] = 0 := by
  simp [vdot]

theorem vdot_replicate_one (n : Nat) (v : List ℚ) :
    vdot v (List.replicate n (1 : ℚ)) =
      ((List.range n).map (fun i => v.getD i 0)).sum := by
  induction n generalizing v with
  | zero => simp [vdot]
  | succ n ih =>
    cases v with
    | nil =>
      simp [vdot, List.getD_nil]
    | cons x xs =>
      rw [List.replicate_succ, List.range_succ_eq_map, List.map_cons, List.map_map,
        List.sum_cons]
      have h1 : vdot (x :: xs) (1 :: List.replicate n 1) =
          x * 1 + vdot xs (List.replicate n 1) := by
        simp [vdot]
      have h2 : (List.range n).map ((fun i => (x :: xs).getD i 0) ∘ Nat.succ) =
          (List.range n).map (fun i => xs.getD i 0) := by
        apply List.map_congr_left
        intro i _
        simp [Function.comp, List.getD_cons_succ]
      rw [h1, ih xs, h2, List.getD_cons_zero, mul_one]

theorem vdot_ones_vector (n : Nat) (v : List ℚ) :
    vdot v (ones_vector n) =
      ((List.range (n - 1)).map (fun i => v.getD (i + 1) 0)).sum := by
  cases n with
  | zero => simp [ones_vector, vdot]
  | succ n =>
    have hset : ones_vector (n + 1) = 0 :: List.replicate n (1 : ℚ) := by
      simp [ones_vector, List.replicate_succ]
    cases v with
    | nil => simp [hset, vdot, List.getD]
    | cons x xs =>
      simp only [hset, vdot, List.zipWith_cons_cons, List.sum_cons, mul_zero,
        Nat.add_sub_cancel]
      have := vdot_replicate_one n xs
      simp only [vdot] at this
      simp [this, List.getD_cons_succ]

theorem sum_map_mul_sub (l : List Nat) (c d : ℚ) (f g : Nat → ℚ) :
    ((l.map (fun i => c * f i - d * g i)).sum) =
      c * (l.map f).sum - d * (l.map g).sum := by
  induction l with
  | nil => simp
  | cons x xs ih => simp [ih]; ring

/-! Claim theorems. -/

/-- C1: for every graph input whose ordered monomial list starts with the
zero monomial (and whose coefficient matrices all carry the PSD-variable
shape, so that model assembly succeeds), `second_level_stable_set_problem_sdp`
assembles an SDP that maximizes the free scalar `b`, imposes for the
`i`-th non-constant monomial `m` the equality constraint `A[m] . X = C[m]`,
imposes for the zero monomial the equality constraint
`A[zero] . X + b = C[zero]`, where `C[m]` is -1 when the total degree of
`m` is exactly 1 and 0 otherwise. -/
theorem second_level_sdp_constraint_structure
    (dm : List Monomial) (A : Monomial → Mat)
    (hne : dm ≠ [])
    (hz : dm.headD [] = zero_tuple dm)
    (hsh : ∀ m ∈ dm, (A m).shape = (psd_size dm A, psd_size dm A)) :
    ∃ I : SDPInstance,
      second_level_instance dm A = Except.ok I ∧
      I.senseMaximize = true ∧
      (∀ b lb ub, I.objective b lb ub = b) ∧
      I.constraints.length =
        (dm.filter (fun m => decide (m ≠ zero_tuple dm))).length + 1 ∧
      (∀ i, i < (dm.filter (fun m => decide (m ≠ zero_tuple dm))).length →
        ∀ X b lb ub,
          (I.constraints.getD i dummy_constraint).holds X b lb ub ↔
            Mat.dot (A ((dm.filter (fun m => decide (m ≠ zero_tuple dm))).getD i [])) X =
              (if total_degree
                    ((dm.filter (fun m => decide (m ≠ zero_tuple dm))).getD i []) = 1
                then (-1 : ℚ) else 0)) ∧
      (∀ X b lb ub,
        (I.constraints.getD
            (dm.filter (fun m => decide (m ≠ zero_tuple dm))).length
            dummy_constraint).holds X b lb ub ↔
          Mat.dot (A (zero_tuple dm)) X + b =
            (if total_degree (zero_tuple dm) = 1 then (-1 : ℚ) else 0)) := by
  have hzmem : zero_tuple dm ∈ dm := by
    cases dm with
    | nil => exact absurd rfl hne
    | cons a t =>
      simp only [List.headD_cons] at hz
      rw [← hz]
      exact List.mem_cons_self a t
  have hshz : (A (zero_tuple dm)).shape = (psd_size dm A, psd_size dm A) := hsh _ hzmem
  have hncsh : ∀ m ∈ dm.filter (fun m => decide (m ≠ zero_tuple dm)),
      (A m).shape = (psd_size dm A, psd_size dm A) :=
    fun m hm => hsh m (List.mem_of_mem_filter hm)
  have hok := checked_constraints_ok (psd_size dm A) A _ hncsh
  have hinst : second_level_instance dm A = Except.ok
      { size_psd_variable := psd_size dm A
        constraints := (dm.filter (fun m => decide (m ≠ zero_tuple dm))).map
            (fun m => { mat := A m, hasB := false, slackIdx := none,
                        rhs := objective_coefficient m }) ++
          [{ mat := A (zero_tuple dm), hasB := true, slackIdx := none,
             rhs := objective_coefficient (zero_tuple dm) }]
        senseMaximize := true
        objective := fun b _ _ => b
        numSlackVars := 0 } := by
    simp only [second_level_instance]
    rw [hok]
    simp [Except.bind, hshz]
  refine ⟨_, hinst, rfl, fun b lb ub => rfl, ?_, ?_, ?_⟩
  · simp
  · intro i hi X b lb ub
    have hilen : i < ((dm.filter (fun m => decide (m ≠ zero_tuple dm))).map
        (fun m => ({ mat := A m, hasB := false, slackIdx := none,
                     rhs := objective_coefficient m } : Constraint))).length := by
      simpa using hi
    rw [List.getD_append _ _ _ _ hilen]
    rw [List.getD_eq_getElem _ _ hilen, List.getElem_map]
    simp only [List.getD_eq_getElem _ _ hi]
    simp [Constraint.holds, Constraint.slackTerm, objective_coefficient, total_degree]
  · intro X b lb ub
    have hle : ((dm.filter (fun m => decide (m ≠ zero_tuple dm))).map
        (fun m => ({ mat := A m, hasB := false, slackIdx := none,
                     rhs := objective_coefficient m } : Constraint))).length ≤
        (dm.filter (fun m => decide (m ≠ zero_tuple dm))).length := by
      simp
    rw [List.getD_append_right _ _ _ _ hle]
    simp [Constraint.holds, Constraint.slackTerm, objective_coefficient, total_degree]

/-- Witness for C1: the hypotheses hold and the conclusion follows at the
concrete monomial list `[[0], [1], [2]]` with every coefficient matrix
equal to the 1 x 1 matrix `[[1]]`. -/
theorem second_level_sdp_constraint_structure_witness :
    ([[0], [1], [2]] : List Monomial) ≠ [] ∧
    ([[0], [1], [2]] : List Monomial).headD [] = zero_tuple [[0], [1], [2]] ∧
    (∀ m ∈ ([[0], [1], [2]] : List Monomial),
      Mat.shape ((fun _ => [[(1 : ℚ)]]) m) =
        (psd_size [[0], [1], [2]] (fun _ => [[(1 : ℚ)]]),
         psd_size [[0], [1], [2]] (fun _ => [[(1 : ℚ)]]))) ∧
    (∃ I : SDPInstance,
      second_level_instance [[0], [1], [2]] (fun _ => [[(1 : ℚ)]]) = Except.ok I ∧
      I.senseMaximize = true ∧
      (∀ b lb ub, I.objective b lb ub = b) ∧
      I.constraints.length =
        (([[0], [1], [2]] : List Monomial).filter
          (fun m => decide (m ≠ zero_tuple [[0], [1], [2]]))).length + 1 ∧
      (∀ i, i < (([[0], [1], [2]] : List Monomial).filter
          (fun m => decide (m ≠ zero_tuple [[0], [1], [2]]))).length →
        ∀ X b lb ub,
          (I.constraints.getD i dummy_constraint).holds X b lb ub ↔
            Mat.dot ((fun _ => [[(1 : ℚ)]])
                ((([[0], [1], [2]] : List Monomial).filter
                  (fun m => decide (m ≠ zero_tuple [[0], [1], [2]]))).getD i [])) X =
              (if total_degree
                    ((([[0], [1], [2]] : List Monomial).filter
                      (fun m => decide (m ≠ zero_tuple [[0], [1], [2]]))).getD i []) = 1
                then (-1 : ℚ) else 0)) ∧
      (∀ X b lb ub,
        (I.constraints.getD
            (([[0], [1], [2]] : List Monomial).filter
              (fun m => decide (m ≠ zero_tuple [[0], [1], [2]]))).length
            dummy_constraint).holds X b lb ub ↔
          Mat.dot ((fun _ => [[(1 : ℚ)]]) (zero_tuple [[0], [1], [2]])) X + b =
            (if total_degree (zero_tuple [[0], [1], [2]]) = 1 then (-1 : ℚ) else 0))) :=
  ⟨by decide, by decide, by decide,
    second_level_sdp_constraint_structure [[0], [1], [2]] (fun _ => [[(1 : ℚ)]])
      (by decide) (by decide) (by decide)⟩

/-- C6: for every input in which some coefficient matrix has a shape
different from the shape of the zero-monomial matrix, model assembly
fails with the dimension-mismatch error, and the whole pipeline returns
that error no matter which solver oracle is supplied - the solver is
never consulted. -/
theorem mismatched_shape_errors_before_solve
    (dm : List Monomial) (A : Monomial → Mat)
    (hne : dm ≠ [])
    (hz : dm.headD [] = zero_tuple dm)
    (hbad : ∃ m ∈ dm, (A m).shape ≠ (A (zero_tuple dm)).shape) :
    second_level_instance dm A = Except.error BuildError.dimensionMismatch ∧
    ∀ solver : SolverOracle,
      second_level_stable_set_problem_sdp dm A solver =
        Except.error BuildError.dimensionMismatch := by
  have hinst : second_level_instance dm A = Except.error BuildError.dimensionMismatch := by
    by_cases hzok : (A (zero_tuple dm)).shape = (psd_size dm A, psd_size dm A)
    · rcases hbad with ⟨m, hm, hms⟩
      have hmne : m ≠ zero_tuple dm := fun hmeq => hms (by rw [hmeq])
      have hmbad : (A m).shape ≠ (psd_size dm A, psd_size dm A) := by
        rw [← hzok]; exact hms
      have herr := checked_constraints_error (psd_size dm A) A
        (dm.filter (fun m => decide (m ≠ zero_tuple dm)))
        ⟨m, List.mem_filter.mpr ⟨hm, by simpa using hmne⟩, hmbad⟩
      simp only [second_level_instance]
      rw [herr]
      rfl
    · simp only [second_level_instance]
      cases hc : checked_constraints (psd_size dm A) A
          (dm.filter (fun m => decide (m ≠ zero_tuple dm))) with
      | ok cs => simp [Except.bind, hc, hzok]
      | error e =>
        cases e
        simp [Except.bind, hc]
  refine ⟨hinst, fun solver => ?_⟩
  simp [second_level_stable_set_problem_sdp, hinst, Except.map]

/-- Witness for C6: at a two-monomial input where the matrix of the
non-constant monomial is 2 x 2 while the zero-monomial matrix is 1 x 1,
assembly fails with the dimension-mismatch error for every solver
oracle. -/
theorem mismatched_shape_errors_before_solve_witness :
    ([[0], [1]] : List Monomial) ≠ [] ∧
    ([[0], [1]] : List Monomial).headD [] = zero_tuple [[0], [1]] ∧
    (∃ m ∈ ([[0], [1]] : List Monomial),
      Mat.shape ((fun m => if m = [0] then [[(1 : ℚ)]] else [[1, 0], [0, 1]]) m) ≠
        Mat.shape ((fun m => if m = [0] then [[(1 : ℚ)]] else [[1, 0], [0, 1]])
            (zero_tuple [[0], [1]]))) ∧
    second_level_instance [[0], [1]]
        (fun m => if m = [0] then [[(1 : ℚ)]] else [[1, 0], [0, 1]]) =
      Except.error BuildError.dimensionMismatch ∧
    ∀ solver : SolverOracle,
      second_level_stable_set_problem_sdp [[0], [1]]
          (fun m => if m = [0] then [[(1 : ℚ)]] else [[1, 0], [0, 1]]) solver =
        Except.error BuildError.dimensionMismatch :=
  ⟨by decide, by decide, by decide,
    mismatched_shape_errors_before_solve [[0], [1]]
      (fun m => if m = [0] then [[(1 : ℚ)]] else [[1, 0], [0, 1]])
      (by decide) (by decide) (by decide)⟩

/-- C2: for every graph input whose monomial list starts with the zero
monomial, and every projector, the projected builder replaces every
coefficient matrix by its image under `apply_rp_map` (a `k x k` matrix);
with slacks enabled, the `i`-th non-constant monomial constraint is
`A'[m_i] . X + lb_{i+1} - ub_{i+1} = C[m_i]` with nonnegative slack
entries, and the constant-monomial constraint is
`A'[zero] . X + b = C[zero]` with no slack term. -/
theorem projected_sdp_constraint_structure
    (dm : List Monomial) (A : Monomial → Mat) (P : RandomProjector)
    (hne : dm ≠ [])
    (hz : dm.headD [] = zero_tuple dm) :
    (∀ m ∈ dm, (P.apply_rp_map (A m)).shape = (P.k, P.k)) ∧
    (projected_second_level_instance dm A P true).constraints.length =
      (dm.filter (fun m => decide (m ≠ zero_tuple dm))).length + 1 ∧
    (∀ i, i < (dm.filter (fun m => decide (m ≠ zero_tuple dm))).length →
      ∀ X b lb ub,
        ((projected_second_level_instance dm A P true).constraints.getD i
            dummy_constraint).holds X b lb ub ↔
          Mat.dot (P.apply_rp_map
              (A ((dm.filter (fun m => decide (m ≠ zero_tuple dm))).getD i []))) X +
            (lb.getD (i + 1) 0 - ub.getD (i + 1) 0) =
            objective_coefficient
              ((dm.filter (fun m => decide (m ≠ zero_tuple dm))).getD i [])) ∧
    (∀ X b lb ub,
      ((projected_second_level_instance dm A P true).constraints.getD
          (dm.filter (fun m => decide (m ≠ zero_tuple dm))).length
          dummy_constraint).holds X b lb ub ↔
        Mat.dot (P.apply_rp_map (A (zero_tuple dm))) X + b =
          objective_coefficient (zero_tuple dm)) ∧
    (∀ X b lb ub,
      (projected_second_level_instance dm A P true).feasible X b lb ub →
        ∀ i, i < (dm.filter (fun m => decide (m ≠ zero_tuple dm))).length →
          0 ≤ lb.getD (i + 1) 0 ∧ 0 ≤ ub.getD (i + 1) 0) := by
  have hlt : (dm.filter (fun m => decide (m ≠ zero_tuple dm))).length < dm.length := by
    cases dm with
    | nil => exact absurd rfl hne
    | cons a t =>
      simp only [List.headD_cons] at hz
      have hfil : (a :: t).filter (fun m => decide (m ≠ zero_tuple (a :: t))) =
          t.filter (fun m => decide (m ≠ zero_tuple (a :: t))) := by
        have hnn : ¬(a ≠ zero_tuple (a :: t)) := not_not_intro hz
        rw [List.filter_cons, decide_eq_false hnn]
        simp
      rw [hfil]
      calc (t.filter (fun m => decide (m ≠ zero_tuple (a :: t)))).length
          ≤ t.length := List.length_filter_le _ _
        _ < (a :: t).length := by simp
  refine ⟨fun m _ => apply_rp_map_shape P (A m), ?_, ?_, ?_, ?_⟩
  · simp only [projected_second_level_instance]
    rw [List.length_append, projected_constraints_length]
    rfl
  · intro i hi X b lb ub
    have hplen : i < (projected_constraints (fun m => P.apply_rp_map (A m)) true 0
        (dm.filter (fun m => decide (m ≠ zero_tuple dm)))).length := by
      rw [projected_constraints_length]; exact hi
    simp only [projected_second_level_instance]
    rw [List.getD_append _ _ _ _ hplen, projected_constraints_getD _ _ _ _ _ hi]
    simp [Constraint.holds, Constraint.slackTerm]
  · intro X b lb ub
    have hge : (projected_constraints (fun m => P.apply_rp_map (A m)) true 0
        (dm.filter (fun m => decide (m ≠ zero_tuple dm)))).length ≤
        (dm.filter (fun m => decide (m ≠ zero_tuple dm))).length := by
      rw [projected_constraints_length]
    simp only [projected_second_level_instance]
    rw [List.getD_append_right _ _ _ _ hge]
    simp [projected_constraints_length, Constraint.holds, Constraint.slackTerm]
  · intro X b lb ub hfeas i hi
    obtain ⟨hlb, hub, hlbn, hubn, _⟩ := hfeas
    have hnum : (projected_second_level_instance dm A P true).numSlackVars =
        dm.length := rfl
    have hi1lb : i + 1 < lb.length := by rw [hlb, hnum]; omega
    have hi1ub : i + 1 < ub.length := by rw [hub, hnum]; omega
    constructor
    · rw [List.getD_eq_getElem _ _ hi1lb]
      exact hlbn _ (List.getElem_mem hi1lb)
    · rw [List.getD_eq_getElem _ _ hi1ub]
      exact hubn _ (List.getElem_mem hi1ub)

/-- Witness for C2 at the concrete input dm = [[0], [1]], unit coefficient
matrices, and the 1 x 1 identity projector. -/
theorem projected_sdp_constraint_structure_witness :
    ([[0], [1]] : List Monomial) ≠ [] ∧
    ([[0], [1]] : List Monomial).headD [] = zero_tuple [[0], [1]] ∧
    ((∀ m ∈ ([[0], [1]] : List Monomial),
      (RandomProjector.apply_rp_map ⟨1, 1, [[1]]⟩ ((fun _ => [[(1 : ℚ)]]) m)).shape =
        ((1 : Nat), (1 : Nat))) ∧
    (projected_second_level_instance [[0], [1]] (fun _ => [[(1 : ℚ)]])
        ⟨1, 1, [[1]]⟩ true).constraints.length =
      (([[0], [1]] : List Monomial).filter
        (fun m => decide (m ≠ zero_tuple [[0], [1]]))).length + 1 ∧
    (∀ i, i < (([[0], [1]] : List Monomial).filter
        (fun m => decide (m ≠ zero_tuple [[0], [1]]))).length →
      ∀ X b lb ub,
        ((projected_second_level_instance [[0], [1]] (fun _ => [[(1 : ℚ)]])
            ⟨1, 1, [[1]]⟩ true).constraints.getD i
            dummy_constraint).holds X b lb ub ↔
          Mat.dot (RandomProjector.apply_rp_map ⟨1, 1, [[1]]⟩
              ((fun _ => [[(1 : ℚ)]])
                ((([[0], [1]] : List Monomial).filter
                  (fun m => decide (m ≠ zero_tuple [[0], [1]]))).getD i []))) X +
            (lb.getD (i + 1) 0 - ub.getD (i + 1) 0) =
            objective_coefficient
              ((([[0], [1]] : List Monomial).filter
                (fun m => decide (m ≠ zero_tuple [[0], [1]]))).getD i [])) ∧
    (∀ X b lb ub,
      ((projected_second_level_instance [[0], [1]] (fun _ => [[(1 : ℚ)]])
          ⟨1, 1, [[1]]⟩ true).constraints.getD
          (([[0], [1]] : List Monomial).filter
            (fun m => decide (m ≠ zero_tuple [[0], [1]]))).length
          dummy_constraint).holds X b lb ub ↔
        Mat.dot (RandomProjector.apply_rp_map ⟨1, 1, [[1]]⟩
            ((fun _ => [[(1 : ℚ)]]) (zero_tuple [[0], [1]]))) X + b =
          objective_coefficient (zero_tuple [[0], [1]])) ∧
    (∀ X b lb ub,
      (projected_second_level_instance [[0], [1]] (fun _ => [[(1 : ℚ)]])
          ⟨1, 1, [[1]]⟩ true).feasible X b lb ub →
        ∀ i, i < (([[0], [1]] : List Monomial).filter
            (fun m => decide (m ≠ zero_tuple [[0], [1]]))).length →
          0 ≤ lb.getD (i + 1) 0 ∧ 0 ≤ ub.getD (i + 1) 0)) :=
  ⟨by decide, by decide,
    projected_sdp_constraint_structure [[0], [1]] (fun _ => [[(1 : ℚ)]])
      ⟨1, 1, [[1]]⟩ (by decide) (by decide)⟩

/-- C10: with slacks enabled, the slack vectors are allocated with one
entry per distinct monomial (constant included); under the precondition
that the zero monomial comes first, index 0 of the slack vectors is never
referenced by any constraint and carries weight 0 in the objective
(because `ones_vector[0] = 0`), the `i`-th non-constant monomial
constraint uses exactly the slack pair at index `i + 1`, and distinct
non-constant monomial constraints use distinct slack pairs. -/
theorem slack_index_allocation
    (dm : List Monomial) (A : Monomial → Mat) (P : RandomProjector)
    (hne : dm ≠ [])
    (hz : dm.headD [] = zero_tuple dm) :
    (projected_second_level_instance dm A P true).numSlackVars = dm.length ∧
    (ones_vector dm.length).getD 0 1 = 0 ∧
    (∀ b lb ub v w,
      (projected_second_level_instance dm A P true).objective b
          (lb.set 0 v) (ub.set 0 w) =
        (projected_second_level_instance dm A P true).objective b lb ub) ∧
    (∀ c ∈ (projected_second_level_instance dm A P true).constraints,
      c.slackIdx ≠ some 0) ∧
    (∀ i, i < (dm.filter (fun m => decide (m ≠ zero_tuple dm))).length →
      ((projected_second_level_instance dm A P true).constraints.getD i
          dummy_constraint).slackIdx = some (i + 1)) ∧
    (∀ i j, i < (dm.filter (fun m => decide (m ≠ zero_tuple dm))).length →
      j < (dm.filter (fun m => decide (m ≠ zero_tuple dm))).length → i ≠ j →
      ((projected_second_level_instance dm A P true).constraints.getD i
          dummy_constraint).slackIdx ≠
        ((projected_second_level_instance dm A P true).constraints.getD j
            dummy_constraint).slackIdx) := by
  obtain ⟨a, t, rfl⟩ : ∃ a t, dm = a :: t := by
    cases dm with
    | nil => exact absurd rfl hne
    | cons a t => exact ⟨a, t, rfl⟩
  have hgetD : ∀ i, i < ((a :: t).filter
      (fun m => decide (m ≠ zero_tuple (a :: t)))).length →
      (((projected_second_level_instance (a :: t) A P true).constraints).getD i
        dummy_constraint).slackIdx = some (i + 1) := by
    intro i hi
    have hplen : i < (projected_constraints (fun m => P.apply_rp_map (A m)) true 0
        ((a :: t).filter (fun m => decide (m ≠ zero_tuple (a :: t))))).length := by
      rw [projected_constraints_length]; exact hi
    simp only [projected_second_level_instance]
    rw [List.getD_append _ _ _ _ hplen, projected_constraints_getD _ _ _ _ _ hi]
    simp
  refine ⟨rfl, ?_, ?_, ?_, hgetD, ?_⟩
  · simp [ones_vector, List.replicate_succ]
  · intro b lb ub v w
    have hvd : ∀ (u : List ℚ) (x : ℚ),
        vdot (u.set 0 x) (ones_vector (a :: t).length) =
          vdot u (ones_vector (a :: t).length) := by
      intro u x
      rw [vdot_ones_vector, vdot_ones_vector]
      apply congrArg List.sum
      apply List.map_congr_left
      intro i _
      rw [List.getD_eq_getElem?_getD, List.getD_eq_getElem?_getD,
        List.getElem?_set_ne (by omega)]
    show projected_objective true (a :: t).length b (lb.set 0 v) (ub.set 0 w) =
      projected_objective true (a :: t).length b lb ub
    simp only [projected_objective, if_pos]
    rw [hvd lb v, hvd ub w]
  · intro c hc
    simp only [projected_second_level_instance] at hc
    rcases List.mem_append.mp hc with hcl | hcr
    · obtain ⟨s, hs⟩ := projected_constraints_mem_slackIdx _ _ _ _ hcl
      simp [hs]
    · have hc0 := List.mem_singleton.mp hcr
      subst hc0
      simp
  · intro i j hi hj hij
    rw [hgetD i hi, hgetD j hj]
    simp only [ne_eq, Option.some.injEq]
    omega

/-- Witness for C10 at the concrete input dm = [[0], [1]], unit coefficient
matrices, and the 1 x 1 identity projector. -/
theorem slack_index_allocation_witness :
    ([[0], [1]] : List Monomial) ≠ [] ∧
    ([[0], [1]] : List Monomial).headD [] = zero_tuple [[0], [1]] ∧
    ((projected_second_level_instance [[0], [1]] (fun _ => [[(1 : ℚ)]])
        ⟨1, 1, [[1]]⟩ true).numSlackVars = ([[0], [1]] : List Monomial).length ∧
    (ones_vector ([[0], [1]] : List Monomial).length).getD 0 1 = 0 ∧
    (∀ b lb ub v w,
      (projected_second_level_instance [[0], [1]] (fun _ => [[(1 : ℚ)]])
          ⟨1, 1, [[1]]⟩ true).objective b (lb.set 0 v) (ub.set 0 w) =
        (projected_second_level_instance [[0], [1]] (fun _ => [[(1 : ℚ)]])
            ⟨1, 1, [[1]]⟩ true).objective b lb ub) ∧
    (∀ c ∈ (projected_second_level_instance [[0], [1]] (fun _ => [[(1 : ℚ)]])
        ⟨1, 1, [[1]]⟩ true).constraints, c.slackIdx ≠ some 0) ∧
    (∀ i, i < (([[0], [1]] : List Monomial).filter
        (fun m => decide (m ≠ zero_tuple [[0], [1]]))).length →
      ((projected_second_level_instance [[0], [1]] (fun _ => [[(1 : ℚ)]])
          ⟨1, 1, [[1]]⟩ true).constraints.getD i dummy_constraint).slackIdx =
        some (i + 1)) ∧
    (∀ i j, i < (([[0], [1]] : List Monomial).filter
        (fun m => decide (m ≠ zero_tuple [[0], [1]]))).length →
      j < (([[0], [1]] : List Monomial).filter
        (fun m => decide (m ≠ zero_tuple [[0], [1]]))).length → i ≠ j →
      ((projected_second_level_instance [[0], [1]] (fun _ => [[(1 : ℚ)]])
          ⟨1, 1, [[1]]⟩ true).constraints.getD i dummy_constraint).slackIdx ≠
        ((projected_second_level_instance [[0], [1]] (fun _ => [[(1 : ℚ)]])
            ⟨1, 1, [[1]]⟩ true).constraints.getD j dummy_constraint).slackIdx)) :=
  ⟨by decide, by decide,
    slack_index_allocation [[0], [1]] (fun _ => [[(1 : ℚ)]]) ⟨1, 1, [[1]]⟩
      (by decide) (by decide)⟩

/-- C3 counterexample: at the two-monomial input with b = 0 and slack
vectors lb = [0, 1], ub = [0, 0], the objective assembled by the
projected builder evaluates to -(1/100000) (the lb weight is
`0 - epsilon`), whereas the formula of the claim, whose lb weight is
`-(0 - epsilon)`, evaluates to 1/100000; the two values differ. -/
theorem projected_objective_lb_sign_counterexample :
    (projected_second_level_instance [[0], [1]] (fun _ => [[(1 : ℚ)]])
        ⟨1, 1, [[1]]⟩ true).objective 0 [0, 1] [0, 0] = -(1 / 100000 : ℚ) ∧
    (0 : ℚ) + (-((0 : ℚ) - 1 / 100000) * 1 - (1 + 1 / 100000) * 0) =
      (1 / 100000 : ℚ) ∧
    (-(1 / 100000 : ℚ)) ≠ (1 / 100000 : ℚ) := by
  refine ⟨?_, by norm_num, by norm_num⟩
  show projected_objective true 2 0 [0, 1] [0, 0] = -(1 / 100000 : ℚ)
  simp [projected_objective, vdot, ones_vector, slack_epsilon]

/-- C3 (amended): with slacks enabled, the objective assembled by
`projected_second_level_stable_set_problem_sdp` equals
`b + sum over the non-constant indices i of ((0 - epsilon) * lb_i - (1 + epsilon) * ub_i)`
with epsilon fixed at 1e-5 (the lb weight is `0 - epsilon`, not
`-(0 - epsilon)` as claimed); with slacks disabled the objective is `b`
alone. -/
theorem projected_objective_formula
    (dm : List Monomial) (A : Monomial → Mat) (P : RandomProjector)
    (b : ℚ) (lb ub : List ℚ) :
    (projected_second_level_instance dm A P true).objective b lb ub =
      b + ((List.range (dm.length - 1)).map
        (fun i => (0 - slack_epsilon) * lb.getD (i + 1) 0 -
          (1 + slack_epsilon) * ub.getD (i + 1) 0)).sum ∧
    (projected_second_level_instance dm A P false).objective b lb ub = b ∧
    slack_epsilon = 1 / 100000 := by
  refine ⟨?_, rfl, rfl⟩
  show b + ((0 - slack_epsilon) * vdot lb (ones_vector dm.length) -
      (1 + slack_epsilon) * vdot ub (ones_vector dm.length)) =
    b + ((List.range (dm.length - 1)).map
      (fun i => (0 - slack_epsilon) * lb.getD (i + 1) 0 -
        (1 + slack_epsilon) * ub.getD (i + 1) 0)).sum
  rw [vdot_ones_vector, vdot_ones_vector, sum_map_mul_sub]

/-- C9 (amended): the solution dictionary returned by the projected
pipeline always carries the placeholder string in its
`no_linear_variables` entry; the count `2 * (number of non-constant
constraints) + 1` when slacks are enabled, else `1`, is computed into a
local variable (lines 248-251) but never stored in the returned
dictionary. -/
theorem no_linear_variables_field_and_local
    (dm : List Monomial) (A : Monomial → Mat) (P : RandomProjector)
    (slack : Bool) (solver : SolverOracle) (n : Nat) :
    (projected_second_level_stable_set_problem_sdp dm A P slack
        solver).no_linear_variables = Sum.inr (r"TBC") ∧
    projected_linear_variables_local true n = 2 * n + 1 ∧
    projected_linear_variables_local false n = 1 :=
  ⟨rfl, rfl, rfl⟩

/-- C9 counterexample: at a concrete two-monomial call with slacks
enabled (one non-constant constraint plus the constant one, so the claim
predicts the integer 3, or 5 if the constant constraint is counted), the
returned entry is the placeholder string, which is neither of those
integers nor the string of the spec. -/
theorem no_linear_variables_TBC_counterexample :
    (projected_second_level_stable_set_problem_sdp [[0], [1]]
        (fun _ => [[(1 : ℚ)]]) ⟨1, 1, [[1]]⟩ true
        (fun _ => ([[0]], 0, 0))).no_linear_variables = Sum.inr (r"TBC") ∧
    (Sum.inr (r"TBC") : Nat ⊕ String) ≠ Sum.inl 3 ∧
    (Sum.inr (r"TBC") : Nat ⊕ String) ≠ Sum.inl 5 ∧
    (Sum.inr (r"TBC") : Nat ⊕ String) ≠ Sum.inr (r"unspecified") :=
  ⟨rfl, by decide, by decide, by decide⟩

/-- C4 (amended): `projected_dimension` computes
`d = log((8 * rank_solution + sum ranks_Ai) / probability) * exp(2 * (epsilon^2/2 - epsilon^3/3))`
and prints it, but returns `None`: the value of the spec formula is the
printed value, not a returned one, and printing is a side effect. -/
theorem projected_dimension_prints_formula (epsilon probability : ℝ)
    (ranks_Ai : List Nat) (rank_solution : Nat) :
    projected_dimension epsilon probability ranks_Ai rank_solution =
      (none,
        [Real.log ((8 * (rank_solution : ℝ) +
            ((ranks_Ai.map (fun r => (r : ℝ))).sum)) / probability) *
          Real.exp (2 * (epsilon ^ 2 / 2 - epsilon ^ 3 / 3))]) := rfl

/-- C4 counterexample: at the concrete call with epsilon = 1/2,
probability = 1/2, no coefficient ranks and solution rank 1, the function
returns `none`, not the real value d that the claim says is returned. -/
theorem projected_dimension_returns_none_counterexample :
    (projected_dimension (1 / 2) (1 / 2) [] 1).1 = none := rfl

/-- C7 (amended): `projected_dimension` performs no parameter validation:
for any epsilon ≤ 0 the call completes normally with the usual computed
output instead of failing with an error. -/
theorem projected_dimension_accepts_nonpositive_epsilon
    (epsilon probability : ℝ) (ranks_Ai : List Nat) (rank_solution : Nat)
    (heps : epsilon ≤ 0) :
    projected_dimension epsilon probability ranks_Ai rank_solution =
      (none,
        [Real.log ((8 * (rank_solution : ℝ) +
            ((ranks_Ai.map (fun r => (r : ℝ))).sum)) / probability) *
          Real.exp (2 * (epsilon ^ 2 / 2 - epsilon ^ 3 / 3))]) := rfl

/-- Witness for C7: at epsilon = 0 (out of range) the call completes with
the computed output. -/
theorem projected_dimension_accepts_nonpositive_epsilon_witness :
    (0 : ℝ) ≤ 0 ∧
    projected_dimension 0 (1 / 2) [] 1 =
      (none,
        [Real.log ((8 * ((1 : Nat) : ℝ) +
            ((([] : List Nat).map (fun r => (r : ℝ))).sum)) / (1 / 2)) *
          Real.exp (2 * ((0 : ℝ) ^ 2 / 2 - (0 : ℝ) ^ 3 / 3))]) :=
  ⟨le_refl 0,
    projected_dimension_accepts_nonpositive_epsilon 0 (1 / 2) [] 1 (le_refl 0)⟩

/-- C7 counterexample: called with the out-of-range epsilon = 0, the
function does not fail with any error: it completes and produces the
normally computed output `(none, [log 16 * exp 0])`. -/
theorem projected_dimension_no_validation_counterexample :
    projected_dimension 0 (1 / 2) [] 1 = (none, [Real.log 16 * Real.exp 0]) := by
  simp only [projected_dimension]
  norm_num

/-- C8 (amended): the value d printed by `projected_dimension` is
strictly decreasing - not increasing - in the probability on (0, 1): for
fixed epsilon in (0, 1) and a positive rank sum, raising the probability
strictly lowers d. -/
theorem projected_dimension_strict_anti_in_probability
    (epsilon : ℝ) (ranks_Ai : List Nat) (rank_solution : Nat) (p1 p2 : ℝ)
    (he0 : 0 < epsilon) (he1 : epsilon < 1)
    (hS : 0 < 8 * (rank_solution : ℝ) + ((ranks_Ai.map (fun r => (r : ℝ))).sum))
    (hp1 : 0 < p1) (h12 : p1 < p2) (hp2 : p2 < 1) :
    (projected_dimension epsilon p2 ranks_Ai rank_solution).2.headD 0 <
      (projected_dimension epsilon p1 ranks_Ai rank_solution).2.headD 0 := by
  show Real.log ((8 * (rank_solution : ℝ) +
        ((ranks_Ai.map (fun r => (r : ℝ))).sum)) / p2) *
      Real.exp (2 * (epsilon ^ 2 / 2 - epsilon ^ 3 / 3)) <
    Real.log ((8 * (rank_solution : ℝ) +
        ((ranks_Ai.map (fun r => (r : ℝ))).sum)) / p1) *
      Real.exp (2 * (epsilon ^ 2 / 2 - epsilon ^ 3 / 3))
  apply mul_lt_mul_of_pos_right _ (Real.exp_pos _)
  apply Real.log_lt_log
  · exact div_pos hS (lt_trans hp1 h12)
  · exact div_lt_div_of_pos_left hS hp1 h12

/-- Witness for C8: at epsilon = 1/2, no coefficient ranks, solution rank
1, and probabilities 1/4 < 1/2, the printed d at probability 1/2 is
strictly below the printed d at probability 1/4. -/
theorem projected_dimension_strict_anti_in_probability_witness :
    (0 : ℝ) < 1 / 2 ∧ (1 / 2 : ℝ) < 1 ∧
    (0 : ℝ) < 8 * ((1 : Nat) : ℝ) + ((([] : List Nat).map (fun r => (r : ℝ))).sum) ∧
    (0 : ℝ) < 1 / 4 ∧ (1 / 4 : ℝ) < 1 / 2 ∧ (1 / 2 : ℝ) < 1 ∧
    (projected_dimension (1 / 2) (1 / 2) [] 1).2.headD 0 <
      (projected_dimension (1 / 2) (1 / 4) [] 1).2.headD 0 :=
  ⟨by norm_num, by norm_num, by norm_num, by norm_num, by norm_num, by norm_num,
    projected_dimension_strict_anti_in_probability (1 / 2) [] 1 (1 / 4) (1 / 2)
      (by norm_num) (by norm_num) (by norm_num) (by norm_num) (by norm_num)
      (by norm_num)⟩

/-- C8 counterexample: with epsilon = 1/2, no coefficient ranks and
solution rank 1, raising the probability from 1/2 to 3/4 strictly lowers
the printed d, refuting the claimed strict increase in probability. -/
theorem projected_dimension_not_increasing_counterexample :
    (projected_dimension (1 / 2) (3 / 4) [] 1).2.headD 0 <
      (projected_dimension (1 / 2) (1 / 2) [] 1).2.headD 0 := by
  show Real.log ((8 * ((1 : Nat) : ℝ) +
        ((([] : List Nat).map (fun r => (r : ℝ))).sum)) / (3 / 4)) *
      Real.exp (2 * ((1 / 2 : ℝ) ^ 2 / 2 - (1 / 2 : ℝ) ^ 3 / 3)) <
    Real.log ((8 * ((1 : Nat) : ℝ) +
        ((([] : List Nat).map (fun r => (r : ℝ))).sum)) / (1 / 2)) *
      Real.exp (2 * ((1 / 2 : ℝ) ^ 2 / 2 - (1 / 2 : ℝ) ^ 3 / 3))
  have h1 : (8 * ((1 : Nat) : ℝ) +
      ((([] : List Nat).map (fun r => (r : ℝ))).sum)) / (3 / 4) = 32 / 3 := by
    norm_num
  have h2 : (8 * ((1 : Nat) : ℝ) +
      ((([] : List Nat).map (fun r => (r : ℝ))).sum)) / (1 / 2) = 16 := by
    norm_num
  rw [h1, h2]
  apply mul_lt_mul_of_pos_right _ (Real.exp_pos _)
  apply Real.log_lt_log (by norm_num)
  norm_num

/-- C5: when the projector acts as the identity map on every coefficient
matrix and its output dimension k equals the ambient PSD size s, the
projected builder with slack disabled assembles exactly the instance
assembled by the unprojected builder; consequently every solver oracle
reports identical solution records, and in particular identical objective
values. -/
theorem projected_identity_no_slack_eq_unprojected
    (dm : List Monomial) (A : Monomial → Mat) (P : RandomProjector)
    (hne : dm ≠ [])
    (hz : dm.headD [] = zero_tuple dm)
    (hsh : ∀ m ∈ dm, (A m).shape = (psd_size dm A, psd_size dm A))
    (hid : ∀ m ∈ dm, P.apply_rp_map (A m) = A m)
    (hk : P.k = psd_size dm A) :
    second_level_instance dm A =
      Except.ok (projected_second_level_instance dm A P false) ∧
    ∀ solver : SolverOracle,
      second_level_stable_set_problem_sdp dm A solver =
        Except.ok (projected_second_level_stable_set_problem_sdp dm A P false
          solver) := by
  have hzmem : zero_tuple dm ∈ dm := by
    cases dm with
    | nil => exact absurd rfl hne
    | cons a t =>
      simp only [List.headD_cons] at hz
      rw [← hz]
      exact List.mem_cons_self a t
  have hhead : dm.headD [] ∈ dm := by
    cases dm with
    | nil => exact absurd rfl hne
    | cons a t => exact List.mem_cons_self a t
  have hps : psd_size dm (fun m => P.apply_rp_map (A m)) = psd_size dm A := by
    show (P.apply_rp_map (A (dm.headD []))).shape.1 = (A (dm.headD [])).shape.1
    rw [hid _ hhead]
  have hproj : projected_second_level_instance dm A P false =
      { size_psd_variable := psd_size dm A
        constraints := (dm.filter (fun m => decide (m ≠ zero_tuple dm))).map
            (fun m => { mat := A m, hasB := false, slackIdx := none,
                        rhs := objective_coefficient m }) ++
          [{ mat := A (zero_tuple dm), hasB := true, slackIdx := none,
             rhs := objective_coefficient (zero_tuple dm) }]
        senseMaximize := true
        objective := fun b _ _ => b
        numSlackVars := 0 } := by
    have hc : projected_constraints (fun m => P.apply_rp_map (A m)) false 0
        (dm.filter (fun m => decide (m ≠ zero_tuple dm))) =
        (dm.filter (fun m => decide (m ≠ zero_tuple dm))).map
          (fun m => { mat := A m, hasB := false, slackIdx := none,
                      rhs := objective_coefficient m }) := by
      rw [projected_constraints_false_eq_map]
      apply List.map_congr_left
      intro m hm
      rw [hid m (List.mem_of_mem_filter hm)]
    have hcz : P.apply_rp_map (A (zero_tuple dm)) = A (zero_tuple dm) := hid _ hzmem
    simp only [projected_second_level_instance]
    rw [hc, hcz, hps]
    exact rfl
  have hshz : (A (zero_tuple dm)).shape = (psd_size dm A, psd_size dm A) :=
    hsh _ hzmem
  have hok := checked_constraints_ok (psd_size dm A) A
    (dm.filter (fun m => decide (m ≠ zero_tuple dm)))
    (fun m hm => hsh m (List.mem_of_mem_filter hm))
  have hinst : second_level_instance dm A = Except.ok
      { size_psd_variable := psd_size dm A
        constraints := (dm.filter (fun m => decide (m ≠ zero_tuple dm))).map
            (fun m => { mat := A m, hasB := false, slackIdx := none,
                        rhs := objective_coefficient m }) ++
          [{ mat := A (zero_tuple dm), hasB := true, slackIdx := none,
             rhs := objective_coefficient (zero_tuple dm) }]
        senseMaximize := true
        objective := fun b _ _ => b
        numSlackVars := 0 } := by
    simp only [second_level_instance]
    rw [hok]
    simp [Except.bind, hshz]
  refine ⟨by rw [hinst, hproj], fun solver => ?_⟩
  simp only [second_level_stable_set_problem_sdp]
  rw [hinst]
  simp only [Except.map]
  simp only [projected_second_level_stable_set_problem_sdp]
  rw [hproj]

/-- Witness for C5 at the concrete input dm = [[0], [1]], unit coefficient
matrices, and the 1 x 1 identity projector, whose congruence map fixes
every 1 x 1 matrix used. -/
theorem projected_identity_no_slack_eq_unprojected_witness :
    ([[0], [1]] : List Monomial) ≠ [] ∧
    ([[0], [1]] : List Monomial).headD [] = zero_tuple [[0], [1]] ∧
    (∀ m ∈ ([[0], [1]] : List Monomial),
      Mat.shape ((fun _ => [[(1 : ℚ)]]) m) =
        (psd_size [[0], [1]] (fun _ => [[(1 : ℚ)]]),
         psd_size [[0], [1]] (fun _ => [[(1 : ℚ)]]))) ∧
    (∀ m ∈ ([[0], [1]] : List Monomial),
      RandomProjector.apply_rp_map ⟨1, 1, [[1]]⟩ ((fun _ => [[(1 : ℚ)]]) m) =
        (fun _ => [[(1 : ℚ)]]) m) ∧
    (RandomProjector.k ⟨1, 1, [[1]]⟩ = psd_size [[0], [1]] (fun _ => [[(1 : ℚ)]])) ∧
    (second_level_instance [[0], [1]] (fun _ => [[(1 : ℚ)]]) =
      Except.ok (projected_second_level_instance [[0], [1]]
        (fun _ => [[(1 : ℚ)]]) ⟨1, 1, [[1]]⟩ false) ∧
    ∀ solver : SolverOracle,
      second_level_stable_set_problem_sdp [[0], [1]] (fun _ => [[(1 : ℚ)]])
          solver =
        Except.ok (projected_second_level_stable_set_problem_sdp [[0], [1]]
          (fun _ => [[(1 : ℚ)]]) ⟨1, 1, [[1]]⟩ false solver)) :=
  ⟨by decide, by decide, by decide,
    by intro m _; simp [RandomProjector.apply_rp_map, List.range_succ],
    by decide,
    projected_identity_no_slack_eq_unprojected [[0], [1]] (fun _ => [[(1 : ℚ)]])
      ⟨1, 1, [[1]]⟩ (by decide) (by decide) (by decide)
      (by intro m _; simp [RandomProjector.apply_rp_map, List.range_succ])
      (by decide)⟩
